import Mathlib

/-!
# ShiftHero MVP — verification of the scheduling core

A shallow embedding of the ShiftHero roster generator (`models.py`,
`solver.py`, `app.py`).  The CP-SAT model built by `solve_schedule` is
embedded as a decidable feasibility predicate over an explicit valuation of
all decision variables, together with the integer objective the solver
minimizes.  Result extraction, the export formatter, the pydantic value
types and the CSV bulk-import handler are embedded as executable functions.
-/

/-! ## Domain model (`models.py`) -/

/-- `Day` enumeration from `models.py`, in source order (defines the
chronological order of the week). -/
inductive Day
  | Mon | Tue | Wed | Thu | Fri | Sat | Sun
deriving DecidableEq, Repr

/-- `TimeBlock` enumeration from `models.py`, in source order. -/
inductive TimeBlock
  | Morning | Lunch | Dinner
deriving DecidableEq, Repr

/-- The string value of a `Day` member (`Day.MON.value == "Mon"` etc.). -/
def Day.val : Day → String
  | .Mon => "Mon"
  | .Tue => "Tue"
  | .Wed => "Wed"
  | .Thu => "Thu"
  | .Fri => "Fri"
  | .Sat => "Sat"
  | .Sun => "Sun"

/-- The string value of a `TimeBlock` member. -/
def TimeBlock.val : TimeBlock → String
  | .Morning => "Morning"
  | .Lunch => "Lunch"
  | .Dinner => "Dinner"

/-- `days_list = [d.value for d in Day]` of `solver.py`, kept as the typed
days in source order. -/
def daysList : List Day := [.Mon, .Tue, .Wed, .Thu, .Fri, .Sat, .Sun]

/-- `blocks_list = [b.value for b in TimeBlock]` of `solver.py`, typed. -/
def blocksList : List TimeBlock := [.Morning, .Lunch, .Dinner]

/-- `Employee` from `models.py`.  `max_hours` is a plain `int` there, so it
is an unconstrained `Int` here (no pydantic range constraint exists). -/
structure Employee where
  id : String
  name : String
  role : String
  max_hours : Int
  unavailable_slots : List String
deriving DecidableEq, Repr

/-- `ShiftRequest` from `models.py`; `required_staff` is a plain `int`. -/
structure ShiftRequest where
  day : Day
  block : TimeBlock
  required_staff : Int
deriving DecidableEq, Repr

/-- `RoleConstraint` from `models.py`; `min_count` is a plain `int`. -/
structure RoleConstraint where
  role : String
  min_count : Int
deriving DecidableEq, Repr

/-- The slot key `f"{d}-{b}"` used by the availability hard constraint. -/
def slotKey (d : Day) (b : TimeBlock) : String := d.val ++ "-" ++ b.val

/-- The 21 slot keys that the solver's availability loop can ever test. -/
def validSlotKeys : List String :=
  (daysList.map fun d => blocksList.map fun b => slotKey d b).flatten

/-! ## Pydantic construction (`models.py`)

The three value types are pydantic `BaseModel`s whose integer fields are
declared as plain `int`, with no `Field(gt=...)`/`Field(ge=...)` range
constraint anywhere in `models.py`.  Construction from well-typed data
therefore always succeeds: pydantic checks the declared types only.  The
`Except` result models pydantic's ability to raise `ValidationError`. -/

/-- Constructing an `Employee`: type validation only, never a range check. -/
def employeeNew (id name role : String) (mh : Int) (unavailable : List String) :
    Except String Employee :=
  .ok ⟨id, name, role, mh, unavailable⟩

/-- Constructing a `ShiftRequest`: type validation only, never a range check. -/
def shiftRequestNew (d : Day) (b : TimeBlock) (staff : Int) :
    Except String ShiftRequest :=
  .ok ⟨d, b, staff⟩

/-- Constructing a `RoleConstraint`: type validation only, never a range check. -/
def roleConstraintNew (role : String) (mc : Int) : Except String RoleConstraint :=
  .ok ⟨role, mc⟩

/-! ## The constraint model of `solve_schedule` (`solver.py` lines 7–88)

Decision variables, keyed as in the source:
* `shift` — the dict `shifts[(emp.id, d, b)]`, keyed by employee **id**
  (a later employee with the same id overwrites the dict entry, so all
  constraints read one shared variable per id, as in the source);
* `shortage` — one bounded int per entry of `demands`, keyed by position;
* `roleShortage` — one bounded int per role constraint position and slot;
* `clopen` — one bool per employee position and day-pair index `0..5`;
* `overtime` — one bounded int per employee position.

A `Solution` is a valuation of every variable; `feasible` states that the
valuation satisfies every constraint `solve_schedule` adds to the model. -/

structure Solution where
  shift : String → Day → TimeBlock → Bool
  shortage : Nat → Int
  roleShortage : Nat → Day → TimeBlock → Int
  clopen : Nat → Nat → Bool
  overtime : Nat → Int

/-- Check `f` on each list element together with its position, mirroring the
positional keying of the solver's per-item variables. -/
def allIdx (f : Nat → α → Bool) : Nat → List α → Bool
  | _, [] => true
  | k, a :: as => f k a && allIdx f (k + 1) as

/-- Sum `f` over each list element together with its position. -/
def sumIdx (f : Nat → α → Int) : Nat → List α → Int
  | _, [] => 0
  | k, a :: as => f k a + sumIdx f (k + 1) as

/-- Value of `sum(shifts[(e.id, d, b)] for e in employees)`. -/
def workedAt (emps : List Employee) (s : Solution) (d : Day) (b : TimeBlock) : Int :=
  (emps.map fun e => ((s.shift e.id d b).toNat : Int)).sum

/-- Hard availability constraints (`solver.py` lines 28–33): for every
employee and every slot whose key is listed in that employee's
`unavailable_slots`, the shift variable is fixed to false. -/
def availOk (emps : List Employee) (s : Solution) : Bool :=
  emps.all fun e => daysList.all fun d => blocksList.all fun b =>
    !(e.unavailable_slots.contains (slotKey d b)) || !(s.shift e.id d b)

/-- Coverage soft constraints (`solver.py` lines 39–44): per demand entry,
`0 ≤ shortage ≤ needed` and `working_staff + shortage ≥ needed`. -/
def coverageOk (emps : List Employee) (demands : List ShiftRequest) (s : Solution) : Bool :=
  allIdx (fun i req =>
    decide (0 ≤ s.shortage i) && decide (s.shortage i ≤ req.required_staff) &&
    decide (req.required_staff ≤ workedAt emps s req.day req.block + s.shortage i))
    0 demands

/-- `[e for e in employees if e.role == target_role]`. -/
def eligibleEmps (emps : List Employee) (r : String) : List Employee :=
  emps.filter fun e => e.role == r

/-- Role soft constraints (`solver.py` lines 47–62).  A role constraint with
no eligible employee is skipped entirely (`if eligible_emps:`); otherwise,
per slot, `0 ≤ role_shortage ≤ min_count` and
`role_force + role_shortage ≥ min_count`. -/
def roleOk (emps : List Employee) (rcs : List RoleConstraint) (s : Solution) : Bool :=
  allIdx (fun j rc =>
    if (eligibleEmps emps rc.role).isEmpty then true
    else daysList.all fun d => blocksList.all fun b =>
      decide (0 ≤ s.roleShortage j d b) && decide (s.roleShortage j d b ≤ rc.min_count) &&
      decide (rc.min_count ≤ workedAt (eligibleEmps emps rc.role) s d b + s.roleShortage j d b))
    0 rcs

/-- The clopen indicator linearization for one day pair (`solver.py` lines
72–74): `AddBoolAnd([dinner, morning]).OnlyEnforceIf(is_clopen)` and
`AddBoolOr([dinner.Not(), morning.Not()]).OnlyEnforceIf(is_clopen.Not())`. -/
def clopenPairOk (s : Solution) (k : Nat) (eid : String) (i : Nat) : Bool :=
  let dv := s.shift eid (daysList.getD i .Mon) .Dinner
  let mv := s.shift eid (daysList.getD (i + 1) .Mon) .Morning
  (!(s.clopen k i) || (dv && mv)) && (s.clopen k i || !dv || !mv)

/-- Clopen constraints for every employee and the 6 consecutive-day pairs
(`for i in range(len(days_list) - 1)`, no Sunday→Monday wraparound). -/
def clopenOk (emps : List Employee) (s : Solution) : Bool :=
  allIdx (fun k e => (List.range 6).all fun i => clopenPairOk s k e.id i) 0 emps

/-- `total_blocks` for one employee id: the count of true shift variables
over the whole week, as an integer. -/
def totalBlocksId (eid : String) (s : Solution) : Int :=
  (daysList.map fun d => (blocksList.map fun b => ((s.shift eid d b).toNat : Int)).sum).sum

/-- Overtime soft constraints (`solver.py` lines 78–82): per employee,
`0 ≤ overtime ≤ 100` and `total_blocks * BLOCK_HOURS ≤ max_hours + overtime`. -/
def overtimeOk (emps : List Employee) (s : Solution) : Bool :=
  allIdx (fun k e =>
    decide (0 ≤ s.overtime k) && decide (s.overtime k ≤ 100) &&
    decide (totalBlocksId e.id s * 4 ≤ e.max_hours + s.overtime k))
    0 emps

/-- A valuation satisfies every constraint `solve_schedule` adds. -/
def feasible (emps : List Employee) (demands : List ShiftRequest)
    (rcs : List RoleConstraint) (s : Solution) : Bool :=
  availOk emps s && coverageOk emps demands s && roleOk emps rcs s &&
    clopenOk emps s && overtimeOk emps s

/-- Coverage penalty terms: `shortage * WEIGHT_UNASSIGNED` per demand entry. -/
def coveragePenalty (demands : List ShiftRequest) (s : Solution) : Int :=
  sumIdx (fun i _ => s.shortage i * 1000) 0 demands

/-- Role penalty terms: `role_shortage * WEIGHT_ROLE_MISSING` per slot, for
each role constraint that has eligible employees; a skipped constraint
contributes no term at all. -/
def rolePenalty (emps : List Employee) (rcs : List RoleConstraint) (s : Solution) : Int :=
  sumIdx (fun j rc =>
    if (eligibleEmps emps rc.role).isEmpty then 0
    else (daysList.map fun d =>
      (blocksList.map fun b => s.roleShortage j d b * 2000).sum).sum) 0 rcs

/-- Clopen penalty terms: `is_clopen * WEIGHT_CLOPEN`. -/
def clopenPenalty (emps : List Employee) (s : Solution) : Int :=
  sumIdx (fun k _ =>
    ((List.range 6).map fun i => ((s.clopen k i).toNat : Int) * 500).sum) 0 emps

/-- Overtime penalty terms: `overtime * WEIGHT_OVERTIME`. -/
def overtimePenalty (emps : List Employee) (s : Solution) : Int :=
  sumIdx (fun k _ => s.overtime k * 50) 0 emps

/-- The minimized objective `sum(penalty_vars)` (`solver.py` line 86),
grouped by constraint family (addition is commutative, the value is the
same as the source's append order). -/
def objectiveVal (emps : List Employee) (demands : List ShiftRequest)
    (rcs : List RoleConstraint) (s : Solution) : Int :=
  coveragePenalty demands s + rolePenalty emps rcs s +
    clopenPenalty emps s + overtimePenalty emps s

/-- `v` is the optimal objective value of the model: attained by some
feasible valuation, and a lower bound on every feasible valuation. -/
def isOptimal (emps : List Employee) (demands : List ShiftRequest)
    (rcs : List RoleConstraint) (v : Int) : Prop :=
  (∃ s, feasible emps demands rcs s = true ∧ objectiveVal emps demands rcs s = v) ∧
    ∀ s, feasible emps demands rcs s = true → v ≤ objectiveVal emps demands rcs s

/-! ## Result extraction (`solver.py` lines 90–133) -/

/-- One entry of the `assignments` list built on an OPTIMAL/FEASIBLE solve. -/
structure AssignmentRow where
  day : String
  block : String
  staff : List String
  staff_str : String
deriving DecidableEq, Repr

/-- The employees whose shift variable for this slot solved to 1, in roster
order (`solver.py` lines 102–105). -/
def assignedEmps (emps : List Employee) (s : Solution) (d : Day) (b : TimeBlock) :
    List Employee :=
  emps.filter fun e => s.shift e.id d b

/-- `next((e.role for e in employees if e.name == name), "")`. -/
def roleOfName (emps : List Employee) (n : String) : String :=
  match emps.find? fun e => e.name == n with
  | some e => e.role
  | none => ""

/-- The `staff_str` rendering: each name followed by a 3-letter role hint
when the looked-up role is non-empty, joined by `", "`. -/
def staffDisplay (emps : List Employee) (names : List String) : String :=
  String.intercalate ", " (names.map fun n =>
    let r := roleOfName emps n
    if r.isEmpty then n else n ++ " (" ++ r.take 3 ++ ")")

/-- The 21 assignment rows, in the day-major, block-minor order the solver
iterates (`for d in days_list: for b in blocks_list:`). -/
def extractAssignments (emps : List Employee) (s : Solution) : List AssignmentRow :=
  (daysList.map fun d => blocksList.map fun b =>
    AssignmentRow.mk d.val b.val ((assignedEmps emps s d b).map fun e => e.name)
      (staffDisplay emps ((assignedEmps emps s d b).map fun e => e.name))).flatten

/-- The values of the `emp_hours_solved` dict: keyed by employee id, so
duplicate ids collapse to one entry; the stored hours depend on the id only. -/
def empHoursValues (emps : List Employee) (s : Solution) : List Int :=
  ((emps.map fun e => e.id).eraseDups).map fun eid => totalBlocksId eid s * 4

/-- Population variance of a list of hour counts (`np.std` squared); `0` on
the empty list, matching the `if hours_values else 0.0` guard. -/
def popVariance (xs : List Int) : ℚ :=
  if xs.length = 0 then 0
  else
    let n : ℚ := xs.length
    let mean : ℚ := (xs.map fun x => (x : ℚ)).sum / n
    (xs.map fun x => ((x : ℚ) - mean) ^ 2).sum / n

/-- `float(np.std(hours_values))`: the population standard deviation. -/
noncomputable def fairnessStdDev (xs : List Int) : ℝ :=
  Real.sqrt (popVariance xs)

/-! ## Export formatter (`solver.py` lines 135–147) -/

/-- The emoji chosen per block name. -/
def blockIcon (b : String) : String :=
  if b == "Morning" then "☀️" else if b == "Lunch" then "🍔" else "🌙"

/-- `generate_whatsapp_export`: empty input yields the sentinel text,
otherwise one day header per distinct day in order of first appearance,
with one line per row of that day. -/
def generate_whatsapp_export (rows : List AssignmentRow) : String :=
  if rows.isEmpty then "No schedule generated."
  else
    "*🍽️ Weekly Roster Draft*\n\n" ++
      String.join (((rows.map fun r => r.day).eraseDups).map fun d =>
        "📅 *" ++ d ++ "*\n" ++
          String.join ((rows.filter fun r => r.day == d).map fun r =>
            blockIcon r.block ++ " " ++ r.block ++ ": " ++ r.staff_str ++ "\n") ++ "\n")

/-! ## The returned `ScheduleOutput` -/

/-- Engine statuses of the CP-SAT solver. -/
inductive CpSolverStatus
  | OPTIMAL | FEASIBLE | INFEASIBLE | MODEL_INVALID | UNKNOWN
deriving DecidableEq, Repr

/-- `ScheduleOutput` from `models.py`, with the two metrics as fields. -/
structure ScheduleOutput where
  assignments : List AssignmentRow
  total_penalty : Int
  fairness_std_dev : ℝ
  formatted_text : String

/-- The result `solve_schedule` returns once the engine has finished
(`solver.py` lines 90–133).  On OPTIMAL/FEASIBLE the engine hands back a
feasible valuation `s` of every variable and `solver.ObjectiveValue()` is
the objective evaluated at `s`; on any other status the failure sentinel is
returned. -/
noncomputable def solveScheduleResult (emps : List Employee)
    (demands : List ShiftRequest) (rcs : List RoleConstraint)
    (status : CpSolverStatus) (s : Solution) : ScheduleOutput :=
  if status = .OPTIMAL ∨ status = .FEASIBLE then
    let rows := extractAssignments emps s
    { assignments := rows
      total_penalty := objectiveVal emps demands rcs s
      fairness_std_dev := fairnessStdDev (empHoursValues emps s)
      formatted_text := generate_whatsapp_export rows }
  else
    { assignments := []
      total_penalty := 0
      fairness_std_dev := 0
      formatted_text := "Unsolvable Error" }

/-! ## CSV bulk import (`app.py` lines 136–146)

The handler runs, inside one `try`, the two comprehensions
`lines = [l.split(',') for l in txt.split('\n') if l.strip()]` and
`parsed = [{..., "max_hours": int(l[2].strip())} for l in lines if len(l) > 2]`;
a `ValueError` raised by `int(...)` aborts the whole `try` block, so nothing
is assigned to the staff table.  On success, a non-empty `parsed` replaces
the staff table wholesale. -/

/-- One parsed staff record of the CSV import. -/
structure StaffRow where
  name : String
  role : String
  max_hours : Int
deriving DecidableEq, Repr

/-- `str.split(sep)` for a one-character separator: split at every
occurrence, keeping empty pieces, as Python does. -/
def splitChars (sep : Char) : List Char → List (List Char)
  | [] => [[]]
  | c :: cs =>
    if c = sep then [] :: splitChars sep cs
    else match splitChars sep cs with
      | [] => [[c]]
      | p :: ps => (c :: p) :: ps

/-- `str.split(sep)` on strings. -/
def pySplit (s : String) (sep : Char) : List String :=
  (splitChars sep s.data).map fun cs => ⟨cs⟩

/-- `str.strip()`: remove leading and trailing whitespace (the common ASCII
whitespace characters; Python also strips the rarer unicode spaces, which no
claim exercises). -/
def pyStrip (s : String) : String :=
  ⟨((s.data.dropWhile fun c => c == ' ' || c == '\t' || c == '\n' || c == '\r').reverse.dropWhile
      fun c => c == ' ' || c == '\t' || c == '\n' || c == '\r').reverse⟩

/-- `int(str)` on a string: strip, then an optional sign followed by one or
more decimal digits (underscore digit-grouping, accepted by Python, is not
modelled; no claim exercises it). -/
def pyInt (s : String) : Option Int :=
  let digits : List Char → Option Int := fun cs =>
    if cs.isEmpty || !cs.all Char.isDigit then none
    else some (cs.foldl (fun a c => a * 10 + ((c.toNat : Int) - 48)) 0)
  match (pyStrip s).data with
  | '+' :: rest => digits rest
  | '-' :: rest => (digits rest).map Int.neg
  | cs => digits cs

/-- Run `f` over the list, aborting at the first error, as the Python list
comprehension does when `int(...)` raises. -/
def mapE {α β : Type} (f : α → Except String β) : List α → Except String (List β)
  | [] => .ok []
  | a :: as =>
    match f a with
    | .ok b => (mapE f as).map fun bs => b :: bs
    | .error m => .error m

/-- Parse the comma-split, length-filtered lines; the first `int()` failure
aborts the whole batch with an error, mirroring the `try`/`except`. -/
def parseStaffLines (ls : List String) : Except String (List StaffRow) :=
  mapE
    (fun l =>
      match pyInt (pyStrip (l.getD 2 "")) with
      | some n => .ok ⟨pyStrip (l.getD 0 ""), pyStrip (l.getD 1 ""), n⟩
      | none => .error "invalid literal for int() with base 10")
    (((ls.filter fun l => !(pyStrip l).data.isEmpty).map fun l => pySplit l ',').filter
      fun l => l.length > 2)

/-- The whole Parse-CSV button handler: split the text area into lines and
parse; on success a non-empty result replaces the staff table, on a parse
error (or an empty result) the staff table is left unchanged. -/
def importStaffCsv (txt : String) (current : List StaffRow) : List StaffRow :=
  match parseStaffLines (pySplit txt '\n') with
  | .ok parsed => if parsed.isEmpty then current else parsed
  | .error _ => current

/-! ## Helper lemmas -/

theorem mem_daysList (d : Day) : d ∈ daysList := by
  cases d <;> simp [daysList]

theorem mem_blocksList (b : TimeBlock) : b ∈ blocksList := by
  cases b <;> simp [blocksList]

theorem allIdx_iff {α : Type} (f : Nat → α → Bool) :
    ∀ (k : Nat) (l : List α),
      allIdx f k l = true ↔ ∀ i (h : i < l.length), f (k + i) l[i] = true := by
  intro k l
  induction l generalizing k with
  | nil => simp [allIdx]
  | cons a as ih =>
    simp only [allIdx, Bool.and_eq_true, ih]
    constructor
    · rintro ⟨h0, hrest⟩ i hi
      match i with
      | 0 => simpa using h0
      | i + 1 =>
        have := hrest i (by simpa using Nat.lt_of_succ_lt_succ hi)
        simpa [Nat.add_comm, Nat.add_left_comm] using this
    · intro h
      refine ⟨by simpa using h 0 (by simp), fun i hi => ?_⟩
      have := h (i + 1) (by simpa using Nat.succ_lt_succ hi)
      simpa [Nat.add_comm, Nat.add_left_comm] using this

theorem feasible_parts {emps : List Employee} {demands : List ShiftRequest}
    {rcs : List RoleConstraint} {s : Solution}
    (h : feasible emps demands rcs s = true) :
    availOk emps s = true ∧ coverageOk emps demands s = true ∧
      roleOk emps rcs s = true ∧ clopenOk emps s = true ∧
      overtimeOk emps s = true := by
  simpa [feasible, Bool.and_eq_true, and_assoc] using h

/-! ## C1 — availability invariant -/

/-- C1: in every feasible (hence in every OPTIMAL or FEASIBLE) solution of
the model, an employee's decision variable for a slot listed in their
`unavailable_slots` is false, and that employee is collected into no
returned assignment for the slot. -/
theorem availability_invariant (emps : List Employee) (demands : List ShiftRequest)
    (rcs : List RoleConstraint) (s : Solution) (e : Employee) (d : Day) (b : TimeBlock)
    (hfeas : feasible emps demands rcs s = true) (he : e ∈ emps)
    (hu : slotKey d b ∈ e.unavailable_slots) :
    s.shift e.id d b = false ∧ e ∉ assignedEmps emps s d b := by
  have hav := (feasible_parts hfeas).1
  rw [availOk, List.all_eq_true] at hav
  have h1 := hav e he
  rw [List.all_eq_true] at h1
  have h2 := h1 d (mem_daysList d)
  rw [List.all_eq_true] at h2
  have h3 := h2 b (mem_blocksList b)
  have hc : e.unavailable_slots.contains (slotKey d b) = true :=
    List.elem_eq_true_of_mem hu
  rw [hc] at h3
  simp only [Bool.not_true, Bool.false_or, Bool.not_eq_true'] at h3
  refine ⟨h3, fun hmem => ?_⟩
  have := (List.mem_filter.mp hmem).2
  rw [h3] at this
  exact Bool.false_ne_true this

/-- Witness for C1 at a concrete roster: one employee who cannot work
Monday Morning, in the all-false valuation. -/
theorem availability_invariant_witness :
    (Solution.mk (fun _ _ _ => false) (fun _ => 0) (fun _ _ _ => 0)
        (fun _ _ => false) (fun _ => 0)).shift "u1" Day.Mon TimeBlock.Morning = false ∧
      (Employee.mk "u1" "U" "General" 40 ["Mon-Morning"]) ∉
        assignedEmps [Employee.mk "u1" "U" "General" 40 ["Mon-Morning"]]
          (Solution.mk (fun _ _ _ => false) (fun _ => 0) (fun _ _ _ => 0)
            (fun _ _ => false) (fun _ => 0)) Day.Mon TimeBlock.Morning :=
  availability_invariant [Employee.mk "u1" "U" "General" 40 ["Mon-Morning"]] [] []
    (Solution.mk (fun _ _ _ => false) (fun _ => 0) (fun _ _ _ => 0)
      (fun _ _ => false) (fun _ => 0))
    (Employee.mk "u1" "U" "General" 40 ["Mon-Morning"]) Day.Mon TimeBlock.Morning
    (by decide) (by decide) (by decide)

/-! ## C4 — hours bound -/

/-- C4: in every feasible solution, four times the number of slots assigned
to an employee is at most that employee's `max_hours` plus 100, because the
overtime variable is bounded by 100 and `total_hours <= max_hours + overtime`
is a model constraint. -/
theorem hours_bound (emps : List Employee) (demands : List ShiftRequest)
    (rcs : List RoleConstraint) (s : Solution)
    (hfeas : feasible emps demands rcs s = true) (k : Nat) (hk : k < emps.length) :
    totalBlocksId emps[k].id s * 4 ≤ emps[k].max_hours + 100 := by
  have hov := (feasible_parts hfeas).2.2.2.2
  rw [overtimeOk, allIdx_iff] at hov
  have h := hov k hk
  simp only [Nat.zero_add, Bool.and_eq_true, decide_eq_true_eq] at h
  omega

/-- Witness for C4: one employee, the all-false valuation. -/
theorem hours_bound_witness :
    totalBlocksId ([Employee.mk "w" "W" "General" 40 []][0]).id
        (Solution.mk (fun _ _ _ => false) (fun _ => 0) (fun _ _ _ => 0)
          (fun _ _ => false) (fun _ => 0)) * 4 ≤
      ([Employee.mk "w" "W" "General" 40 []][0]).max_hours + 100 :=
  hours_bound [Employee.mk "w" "W" "General" 40 []] [] []
    (Solution.mk (fun _ _ _ => false) (fun _ => 0) (fun _ _ _ => 0)
      (fun _ _ => false) (fun _ => 0))
    (by decide) 0 (by decide)

/-! ## C2 — the model is always satisfiable on well-formed input -/

/-- The all-false assignment together with the slack values that make every
soft constraint hold: each shortage at its upper bound `required_staff`,
each role shortage at `min_count`, no clopen, zero overtime. -/
def zeroSolution (demands : List ShiftRequest) (rcs : List RoleConstraint) : Solution :=
  ⟨fun _ _ _ => false,
   fun i => (demands.getD i ⟨.Mon, .Morning, 0⟩).required_staff,
   fun j _ _ => (rcs.getD j ⟨"", 1⟩).min_count,
   fun _ _ => false,
   fun _ => 0⟩

theorem workedAt_zeroSolution (emps : List Employee) (ds : List ShiftRequest)
    (rs : List RoleConstraint) (d : Day) (b : TimeBlock) :
    workedAt emps (zeroSolution ds rs) d b = 0 := by
  rw [workedAt]
  apply List.sum_eq_zero
  intro x hx
  rw [List.mem_map] at hx
  obtain ⟨e, -, rfl⟩ := hx
  simp [zeroSolution]

theorem totalBlocksId_zeroSolution (eid : String) (ds : List ShiftRequest)
    (rs : List RoleConstraint) :
    totalBlocksId eid (zeroSolution ds rs) = 0 := by
  simp [totalBlocksId, zeroSolution, daysList, blocksList]

/-- C2: for well-formed input (non-negative demand, positive `max_hours`,
positive `min_count`) the model built by `solve_schedule` is satisfiable:
the all-false assignment extends to a valuation meeting every constraint.
A complete engine therefore never reports INFEASIBLE on such input. -/
theorem always_feasible (emps : List Employee) (demands : List ShiftRequest)
    (rcs : List RoleConstraint)
    (hd : ∀ req ∈ demands, 0 ≤ req.required_staff)
    (hm : ∀ e ∈ emps, 0 < e.max_hours)
    (hr : ∀ rc ∈ rcs, 0 < rc.min_count) :
    ∃ s : Solution, (∀ eid d b, s.shift eid d b = false) ∧
      feasible emps demands rcs s = true := by
  refine ⟨zeroSolution demands rcs, fun _ _ _ => rfl, ?_⟩
  rw [feasible]
  simp only [Bool.and_eq_true]
  refine ⟨⟨⟨⟨?_, ?_⟩, ?_⟩, ?_⟩, ?_⟩
  · rw [availOk, List.all_eq_true]
    intro e _
    rw [List.all_eq_true]
    intro d _
    rw [List.all_eq_true]
    intro b _
    simp [zeroSolution]
  · rw [coverageOk, allIdx_iff]
    intro i hi
    have hget : demands.getD i ⟨.Mon, .Morning, 0⟩ = demands[i] := by
      rw [List.getD_eq_getElem?_getD, List.getElem?_eq_getElem hi, Option.getD_some]
    have hpos : 0 ≤ demands[i].required_staff := hd _ (List.getElem_mem hi)
    simp only [Nat.zero_add, Bool.and_eq_true, decide_eq_true_eq]
    rw [workedAt_zeroSolution]
    simp only [zeroSolution, hget]
    omega
  · rw [roleOk, allIdx_iff]
    intro j hj
    simp only [Nat.zero_add]
    split
    · rfl
    · rw [List.all_eq_true]
      intro d _
      rw [List.all_eq_true]
      intro b _
      have hget : rcs.getD j ⟨"", 1⟩ = rcs[j] := by
        rw [List.getD_eq_getElem?_getD, List.getElem?_eq_getElem hj, Option.getD_some]
      have hpos : 0 < rcs[j].min_count := hr _ (List.getElem_mem hj)
      simp only [Bool.and_eq_true, decide_eq_true_eq]
      rw [workedAt_zeroSolution]
      simp only [zeroSolution, hget]
      omega
  · rw [clopenOk, allIdx_iff]
    intro k hk
    rw [List.all_eq_true]
    intro i _
    simp [clopenPairOk, zeroSolution]
  · rw [overtimeOk, allIdx_iff]
    intro k hk
    have hpos : 0 < emps[k].max_hours := hm _ (List.getElem_mem hk)
    simp only [Nat.zero_add, Bool.and_eq_true, decide_eq_true_eq]
    rw [totalBlocksId_zeroSolution]
    simp only [zeroSolution]
    omega

/-- Witness for C2 at a concrete well-formed input. -/
theorem always_feasible_witness :
    ∃ s : Solution, (∀ eid d b, s.shift eid d b = false) ∧
      feasible [Employee.mk "a" "A" "Manager" 40 []]
        [ShiftRequest.mk Day.Mon TimeBlock.Morning 2]
        [RoleConstraint.mk "Manager" 1] s = true :=
  always_feasible [Employee.mk "a" "A" "Manager" 40 []]
    [ShiftRequest.mk Day.Mon TimeBlock.Morning 2]
    [RoleConstraint.mk "Manager" 1]
    (by decide) (by decide) (by decide)


/-! ## C5 — inert role constraints -/

theorem allIdx_cons {α : Type} (f : Nat → α → Bool) (k : Nat) (a : α) (as : List α) :
    allIdx f k (a :: as) = (f k a && allIdx f (k + 1) as) := rfl

theorem sumIdx_cons {α : Type} (f : Nat → α → Int) (k : Nat) (a : α) (as : List α) :
    sumIdx f k (a :: as) = f k a + sumIdx f (k + 1) as := rfl

theorem allIdx_append {α : Type} (f : Nat → α → Bool) :
    ∀ (k : Nat) (l₁ l₂ : List α),
      allIdx f k (l₁ ++ l₂) = (allIdx f k l₁ && allIdx f (k + l₁.length) l₂)
  | _, [], l₂ => by simp [allIdx]
  | k, a :: as, l₂ => by
    show (f k a && allIdx f (k + 1) (as ++ l₂)) = _
    rw [allIdx_cons, allIdx_append f (k + 1) as l₂, List.length_cons,
      (by omega : k + 1 + as.length = k + (as.length + 1)), Bool.and_assoc]

theorem sumIdx_append {α : Type} (f : Nat → α → Int) :
    ∀ (k : Nat) (l₁ l₂ : List α),
      sumIdx f k (l₁ ++ l₂) = sumIdx f k l₁ + sumIdx f (k + l₁.length) l₂
  | _, [], l₂ => by simp [sumIdx]
  | k, a :: as, l₂ => by
    show f k a + sumIdx f (k + 1) (as ++ l₂) = _
    rw [sumIdx_cons, sumIdx_append f (k + 1) as l₂, List.length_cons,
      (by omega : k + 1 + as.length = k + (as.length + 1)), add_assoc]

theorem allIdx_shift {α : Type} (f : Nat → α → Bool) :
    ∀ (k : Nat) (l : List α),
      allIdx (fun j a => f (j + 1) a) k l = allIdx f (k + 1) l
  | _, [] => rfl
  | k, a :: as => by
    rw [allIdx_cons, allIdx_cons, allIdx_shift f (k + 1) as]

theorem sumIdx_shift {α : Type} (f : Nat → α → Int) :
    ∀ (k : Nat) (l : List α),
      sumIdx (fun j a => f (j + 1) a) k l = sumIdx f (k + 1) l
  | _, [] => rfl
  | k, a :: as => by
    rw [sumIdx_cons, sumIdx_cons, sumIdx_shift f (k + 1) as]

theorem allIdx_congr_idx {α : Type} {f g : Nat → α → Bool} :
    ∀ (k : Nat) (l : List α),
      (∀ j a, k ≤ j → j < k + l.length → f j a = g j a) →
      allIdx f k l = allIdx g k l := by
  intro k l
  induction l generalizing k with
  | nil => intro _; rfl
  | cons a as ih =>
    intro h
    rw [allIdx_cons, allIdx_cons, h k a (le_refl k) (by simp),
      ih (k + 1) fun j a hj hlt => h j a (by omega) (by simp at hlt ⊢; omega)]

theorem sumIdx_congr_idx {α : Type} {f g : Nat → α → Int} :
    ∀ (k : Nat) (l : List α),
      (∀ j a, k ≤ j → j < k + l.length → f j a = g j a) →
      sumIdx f k l = sumIdx g k l := by
  intro k l
  induction l generalizing k with
  | nil => intro _; rfl
  | cons a as ih =>
    intro h
    rw [sumIdx_cons, sumIdx_cons, h k a (le_refl k) (by simp),
      ih (k + 1) fun j a hj hlt => h j a (by omega) (by simp at hlt ⊢; omega)]

theorem allIdx_reindex_drop {α : Type} (H G : Nat → α → Bool) (p : Nat)
    (hlow : ∀ j a, j < p → H j a = G j a)
    (hhigh : ∀ j a, p ≤ j → H (j + 1) a = G j a)
    (l₁ l₂ : List α) (hlen : l₁.length = p) :
    (allIdx H 0 l₁ && allIdx H (p + 1) l₂) = (allIdx G 0 l₁ && allIdx G p l₂) := by
  congr 1
  · exact allIdx_congr_idx 0 l₁ fun j a _ hlt => hlow j a (by omega)
  · rw [← allIdx_shift H p l₂]
    exact allIdx_congr_idx p l₂ fun j a hj _ => hhigh j a hj

theorem sumIdx_reindex_drop {α : Type} (H G : Nat → α → Int) (p : Nat)
    (hlow : ∀ j a, j < p → H j a = G j a)
    (hhigh : ∀ j a, p ≤ j → H (j + 1) a = G j a)
    (l₁ l₂ : List α) (hlen : l₁.length = p) :
    sumIdx H 0 l₁ + sumIdx H (p + 1) l₂ = sumIdx G 0 l₁ + sumIdx G p l₂ := by
  congr 1
  · exact sumIdx_congr_idx 0 l₁ fun j a _ hlt => hlow j a (by omega)
  · rw [← sumIdx_shift H p l₂]
    exact sumIdx_congr_idx p l₂ fun j a hj _ => hhigh j a hj

/-- Forget the role-shortage variables of the role constraint at position
`p`, rebasing the positions above it; every other variable is untouched. -/
def dropRoleIdx (p : Nat) (s : Solution) : Solution :=
  { s with roleShortage := fun j =>
      if j < p then s.roleShortage j else s.roleShortage (j + 1) }

/-- C5: a role constraint whose role matches zero employees, wherever it
occurs in the list, is skipped entirely: the model containing it imposes
exactly the constraints of the model without it (its role-shortage
variables appear in no constraint) and the objective values agree, so it
contributes nothing to `total_penalty`. -/
theorem role_inertness (emps : List Employee) (demands : List ShiftRequest)
    (rcs₁ rcs₂ : List RoleConstraint) (rc : RoleConstraint)
    (hno : eligibleEmps emps rc.role = []) (s : Solution) :
    feasible emps demands (rcs₁ ++ rc :: rcs₂) s =
      feasible emps demands (rcs₁ ++ rcs₂) (dropRoleIdx rcs₁.length s) ∧
    objectiveVal emps demands (rcs₁ ++ rc :: rcs₂) s =
      objectiveVal emps demands (rcs₁ ++ rcs₂) (dropRoleIdx rcs₁.length s) := by
  have hrole : roleOk emps (rcs₁ ++ rc :: rcs₂) s =
      roleOk emps (rcs₁ ++ rcs₂) (dropRoleIdx rcs₁.length s) := by
    rw [roleOk, roleOk, allIdx_append, allIdx_append, allIdx_cons]
    simp only [Nat.zero_add, hno, List.isEmpty_nil, if_true, Bool.true_and]
    exact allIdx_reindex_drop _ _ rcs₁.length
      (fun j a hj => by
        have : (dropRoleIdx rcs₁.length s).roleShortage j = s.roleShortage j := by
          simp [dropRoleIdx, hj]
        rw [show workedAt (eligibleEmps emps a.role) (dropRoleIdx rcs₁.length s) =
            workedAt (eligibleEmps emps a.role) s from rfl, this])
      (fun j a hj => by
        have hnlt : ¬ j < rcs₁.length := by omega
        have : (dropRoleIdx rcs₁.length s).roleShortage j = s.roleShortage (j + 1) := by
          simp [dropRoleIdx, hnlt]
        rw [show workedAt (eligibleEmps emps a.role) (dropRoleIdx rcs₁.length s) =
            workedAt (eligibleEmps emps a.role) s from rfl, this])
      rcs₁ rcs₂ rfl
  have hpen : rolePenalty emps (rcs₁ ++ rc :: rcs₂) s =
      rolePenalty emps (rcs₁ ++ rcs₂) (dropRoleIdx rcs₁.length s) := by
    rw [rolePenalty, rolePenalty, sumIdx_append, sumIdx_append, sumIdx_cons]
    simp only [Nat.zero_add, hno, List.isEmpty_nil, if_true, zero_add]
    exact sumIdx_reindex_drop _ _ rcs₁.length
      (fun j a hj => by
        have : (dropRoleIdx rcs₁.length s).roleShortage j = s.roleShortage j := by
          simp [dropRoleIdx, hj]
        rw [this])
      (fun j a hj => by
        have hnlt : ¬ j < rcs₁.length := by omega
        have : (dropRoleIdx rcs₁.length s).roleShortage j = s.roleShortage (j + 1) := by
          simp [dropRoleIdx, hnlt]
        rw [this])
      rcs₁ rcs₂ rfl
  constructor
  · show (availOk emps s && coverageOk emps demands s &&
        roleOk emps (rcs₁ ++ rc :: rcs₂) s && clopenOk emps s && overtimeOk emps s) = _
    rw [hrole]
    rfl
  · show coveragePenalty demands s + rolePenalty emps (rcs₁ ++ rc :: rcs₂) s +
        clopenPenalty emps s + overtimePenalty emps s = _
    rw [hpen]
    rfl

/-- Witness for C5: a "Chef" minimum with no chef on the roster, appended to
an empty constraint list, at the all-false valuation. -/
theorem role_inertness_witness :
    feasible [Employee.mk "a" "A" "Server" 40 []] [] ([] ++ RoleConstraint.mk "Chef" 1 :: [])
        (zeroSolution [] []) =
      feasible [Employee.mk "a" "A" "Server" 40 []] [] ([] ++ [])
        (dropRoleIdx (List.length ([] : List RoleConstraint)) (zeroSolution [] [])) ∧
    objectiveVal [Employee.mk "a" "A" "Server" 40 []] [] ([] ++ RoleConstraint.mk "Chef" 1 :: [])
        (zeroSolution [] []) =
      objectiveVal [Employee.mk "a" "A" "Server" 40 []] [] ([] ++ [])
        (dropRoleIdx (List.length ([] : List RoleConstraint)) (zeroSolution [] [])) :=
  role_inertness [Employee.mk "a" "A" "Server" 40 []] [] [] []
    (RoleConstraint.mk "Chef" 1) (by decide) (zeroSolution [] [])

/-! ## C7 — construction-time validation (there is none in `models.py`) -/

/-- C7 counterexample: the claim says construction of the value types
rejects `max_hours <= 0`, `required_staff < 0` and `min_count <= 0` with a
validation error, but `models.py` declares plain `int` fields with no range
constraint, so all three malformed constructions succeed. -/
theorem construction_no_validation :
    employeeNew "x" "X" "General" (-1) [] =
        .ok (Employee.mk "x" "X" "General" (-1) []) ∧
      shiftRequestNew Day.Mon TimeBlock.Morning (-1) =
        .ok (ShiftRequest.mk Day.Mon TimeBlock.Morning (-1)) ∧
      roleConstraintNew "Chef" 0 = .ok (RoleConstraint.mk "Chef" 0) :=
  ⟨rfl, rfl, rfl⟩

/-- C7 (amended): construction of the domain value types performs no range
validation at all — every well-typed `Employee`, `ShiftRequest` and
`RoleConstraint`, including ones with non-positive `max_hours`, negative
`required_staff` or non-positive `min_count`, is accepted and reaches the
solver. -/
theorem construction_accepts_everything (id name role : String) (mh : Int)
    (u : List String) (d : Day) (b : TimeBlock) (staff mc : Int) :
    (employeeNew id name role mh u).isOk = true ∧
      (shiftRequestNew d b staff).isOk = true ∧
      (roleConstraintNew role mc).isOk = true :=
  ⟨rfl, rfl, rfl⟩

/-! ## C8 — non-OPTIMAL/FEASIBLE statuses are reported as failure -/

theorem extractAssignments_length (emps : List Employee) (s : Solution) :
    (extractAssignments emps s).length = 21 := by
  simp [extractAssignments, daysList, blocksList]

/-- C8: when the engine finishes with any status other than OPTIMAL or
FEASIBLE (in particular UNKNOWN), `solve_schedule` returns the failure
sentinel — empty assignments and the text `"Unsolvable Error"` — which is
distinguishable from every successful result, since a successful solve
always returns exactly 21 assignment rows. -/
theorem unknown_reported_as_failure (emps : List Employee)
    (demands : List ShiftRequest) (rcs : List RoleConstraint)
    (st : CpSolverStatus) (s : Solution)
    (h1 : st ≠ .OPTIMAL) (h2 : st ≠ .FEASIBLE) :
    (solveScheduleResult emps demands rcs st s).assignments = [] ∧
      (solveScheduleResult emps demands rcs st s).formatted_text = "Unsolvable Error" ∧
      ∀ (emps' : List Employee) (demands' : List ShiftRequest)
        (rcs' : List RoleConstraint) (st' : CpSolverStatus) (s' : Solution),
        (st' = .OPTIMAL ∨ st' = .FEASIBLE) →
        solveScheduleResult emps demands rcs st s ≠
          solveScheduleResult emps' demands' rcs' st' s' := by
  have hcond : ¬ (st = .OPTIMAL ∨ st = .FEASIBLE) := by
    rintro (h | h) <;> [exact h1 h; exact h2 h]
  rw [solveScheduleResult, if_neg hcond]
  refine ⟨rfl, rfl, ?_⟩
  intro emps' demands' rcs' st' s' hok heq
  have hlen := congrArg (fun o => o.assignments.length) heq
  rw [solveScheduleResult, if_pos hok] at hlen
  simp only [List.length_nil, extractAssignments_length] at hlen
  exact (by omega : (0 : Nat) ≠ 21) hlen

/-- Witness for C8 at the UNKNOWN status and a concrete empty input. -/
theorem unknown_reported_as_failure_witness :
    (solveScheduleResult [] [] [] .UNKNOWN (zeroSolution [] [])).assignments = [] ∧
      (solveScheduleResult [] [] [] .UNKNOWN
        (zeroSolution [] [])).formatted_text = "Unsolvable Error" ∧
      ∀ (emps' : List Employee) (demands' : List ShiftRequest)
        (rcs' : List RoleConstraint) (st' : CpSolverStatus) (s' : Solution),
        (st' = .OPTIMAL ∨ st' = .FEASIBLE) →
        solveScheduleResult [] [] [] .UNKNOWN (zeroSolution [] []) ≠
          solveScheduleResult emps' demands' rcs' st' s' :=
  unknown_reported_as_failure [] [] [] .UNKNOWN (zeroSolution [] [])
    (by decide) (by decide)

/-! ## C10 — invalid unavailability entries are silently ignored -/

theorem bool_eq_of_iff {a b : Bool} (h : a = true ↔ b = true) : a = b := by
  cases a <;> cases b <;> simp_all

theorem all_congr_mem {α : Type} {l : List α} {f g : α → Bool}
    (h : ∀ a ∈ l, f a = g a) : l.all f = l.all g := by
  induction l with
  | nil => rfl
  | cons a as ih =>
    rw [List.all_cons, List.all_cons, h a (by simp),
      ih fun x hx => h x (by simp [hx])]

theorem mem_validSlotKeys (d : Day) (b : TimeBlock) : slotKey d b ∈ validSlotKeys := by
  cases d <;> cases b <;> decide

theorem contains_eq_decide_mem (l : List String) (a : String) :
    l.contains a = decide (a ∈ l) := by
  rw [show l.contains a = l.elem a from rfl, List.elem_eq_mem]

theorem isEmpty_middle {α : Type} (l₁ l₂ : List α) (x y : α) :
    (l₁ ++ x :: l₂).isEmpty = (l₁ ++ y :: l₂).isEmpty := by
  cases l₁ <;> rfl

theorem roleOfName_middle (l₁ l₂ : List Employee) (x y : Employee)
    (hname : x.name = y.name) (hrole : x.role = y.role) (n : String) :
    roleOfName (l₁ ++ x :: l₂) n = roleOfName (l₁ ++ y :: l₂) n := by
  simp only [roleOfName, List.find?_append]
  cases hf : List.find? (fun e' => e'.name == n) l₁ with
  | some v => simp
  | none =>
    simp only [Option.none_or, List.find?_cons]
    by_cases hn : (x.name == n) = true
    · have hn' : (y.name == n) = true := by rw [← hname]; exact hn
      simp [hn, hn', hrole]
    · have hx : (x.name == n) = false := by revert hn; cases x.name == n <;> simp
      have hy : (y.name == n) = false := by rw [← hname]; exact hx
      simp [hx, hy]

/-- C10: an `unavailable_slots` entry that is not one of the 21 valid
`"<Day>-<Block>"` keys is silently ignored: deleting it from the employee's
list leaves the constraint set, the objective, and the extracted
assignments of every valuation unchanged — it fixes no variable and raises
no error. -/
theorem junk_unavailability_ignored (emps₁ emps₂ : List Employee)
    (demands : List ShiftRequest) (rcs : List RoleConstraint)
    (e : Employee) (junk : String) (u₁ u₂ : List String)
    (hjunk : junk ∉ validSlotKeys) (s : Solution) :
    feasible (emps₁ ++ { e with unavailable_slots := u₁ ++ junk :: u₂ } :: emps₂)
        demands rcs s =
      feasible (emps₁ ++ { e with unavailable_slots := u₁ ++ u₂ } :: emps₂)
        demands rcs s ∧
    objectiveVal (emps₁ ++ { e with unavailable_slots := u₁ ++ junk :: u₂ } :: emps₂)
        demands rcs s =
      objectiveVal (emps₁ ++ { e with unavailable_slots := u₁ ++ u₂ } :: emps₂)
        demands rcs s ∧
    extractAssignments (emps₁ ++ { e with unavailable_slots := u₁ ++ junk :: u₂ } :: emps₂) s =
      extractAssignments (emps₁ ++ { e with unavailable_slots := u₁ ++ u₂ } :: emps₂) s := by
  set eJ : Employee := { e with unavailable_slots := u₁ ++ junk :: u₂ } with heJ
  set eC : Employee := { e with unavailable_slots := u₁ ++ u₂ } with heC
  have hinner :
      (daysList.all fun d => blocksList.all fun b =>
        !((u₁ ++ junk :: u₂).contains (slotKey d b)) || !(s.shift e.id d b)) =
      (daysList.all fun d => blocksList.all fun b =>
        !((u₁ ++ u₂).contains (slotKey d b)) || !(s.shift e.id d b)) := by
    apply all_congr_mem
    intro d _
    apply all_congr_mem
    intro b _
    have hne : slotKey d b ≠ junk := fun h => hjunk (h ▸ mem_validSlotKeys d b)
    have hkey : (u₁ ++ junk :: u₂).contains (slotKey d b) =
        (u₁ ++ u₂).contains (slotKey d b) := by
      rw [contains_eq_decide_mem, contains_eq_decide_mem]
      exact decide_eq_decide.mpr (by simp [List.mem_append, List.mem_cons, hne])
    rw [hkey]
  have havail : availOk (emps₁ ++ eJ :: emps₂) s = availOk (emps₁ ++ eC :: emps₂) s := by
    simp only [availOk, List.all_append, List.all_cons, heJ, heC]
    rw [hinner]
  have hworkedFun : workedAt (emps₁ ++ eJ :: emps₂) s = workedAt (emps₁ ++ eC :: emps₂) s := by
    funext d b
    simp only [workedAt, List.map_append, List.map_cons]
  have hcov : coverageOk (emps₁ ++ eJ :: emps₂) demands s =
      coverageOk (emps₁ ++ eC :: emps₂) demands s := by
    unfold coverageOk
    rw [hworkedFun]
  have heligEmpty : ∀ r, (eligibleEmps (emps₁ ++ eJ :: emps₂) r).isEmpty =
      (eligibleEmps (emps₁ ++ eC :: emps₂) r).isEmpty := by
    intro r
    simp only [eligibleEmps, List.filter_append, List.filter_cons, heJ, heC]
    by_cases hc : e.role == r
    · simp only [hc, if_true]
      exact isEmpty_middle _ _ _ _
    · simp [hc]
  have hworkedElig : ∀ r, workedAt (eligibleEmps (emps₁ ++ eJ :: emps₂) r) s =
      workedAt (eligibleEmps (emps₁ ++ eC :: emps₂) r) s := by
    intro r
    funext d b
    simp only [eligibleEmps, List.filter_append, List.filter_cons, heJ, heC]
    by_cases hc : e.role == r
    · simp only [hc, if_true, workedAt, List.map_append, List.map_cons]
    · simp [hc]
  have hrole : roleOk (emps₁ ++ eJ :: emps₂) rcs s =
      roleOk (emps₁ ++ eC :: emps₂) rcs s := by
    unfold roleOk
    apply allIdx_congr_idx
    intro j a _ _
    rw [heligEmpty a.role, hworkedElig a.role]
  have hclopen : clopenOk (emps₁ ++ eJ :: emps₂) s = clopenOk (emps₁ ++ eC :: emps₂) s := by
    unfold clopenOk
    rw [allIdx_append, allIdx_cons, allIdx_append, allIdx_cons]
  have hovertime : overtimeOk (emps₁ ++ eJ :: emps₂) s =
      overtimeOk (emps₁ ++ eC :: emps₂) s := by
    unfold overtimeOk
    rw [allIdx_append, allIdx_cons, allIdx_append, allIdx_cons]
  have hrolePen : rolePenalty (emps₁ ++ eJ :: emps₂) rcs s =
      rolePenalty (emps₁ ++ eC :: emps₂) rcs s := by
    unfold rolePenalty
    apply sumIdx_congr_idx
    intro j a _ _
    rw [heligEmpty a.role]
  have hclopenPen : clopenPenalty (emps₁ ++ eJ :: emps₂) s =
      clopenPenalty (emps₁ ++ eC :: emps₂) s := by
    unfold clopenPenalty
    rw [sumIdx_append, sumIdx_cons, sumIdx_append, sumIdx_cons]
  have hovertimePen : overtimePenalty (emps₁ ++ eJ :: emps₂) s =
      overtimePenalty (emps₁ ++ eC :: emps₂) s := by
    unfold overtimePenalty
    rw [sumIdx_append, sumIdx_cons, sumIdx_append, sumIdx_cons]
  have hnames : ∀ d b, ((assignedEmps (emps₁ ++ eJ :: emps₂) s d b).map fun e' => e'.name) =
      ((assignedEmps (emps₁ ++ eC :: emps₂) s d b).map fun e' => e'.name) := by
    intro d b
    simp only [assignedEmps, List.filter_append, List.filter_cons, heJ, heC]
    by_cases hs : s.shift e.id d b
    · simp only [hs, if_true, List.map_append, List.map_cons]
    · simp [hs]
  have hrname : ∀ n, roleOfName (emps₁ ++ eJ :: emps₂) n =
      roleOfName (emps₁ ++ eC :: emps₂) n := fun n =>
    roleOfName_middle emps₁ emps₂ eJ eC rfl rfl n
  have hdisp : ∀ ns, staffDisplay (emps₁ ++ eJ :: emps₂) ns =
      staffDisplay (emps₁ ++ eC :: emps₂) ns := by
    intro ns
    unfold staffDisplay
    congr 1
    apply List.map_congr_left
    intro n _
    rw [hrname n]
  have hextract : extractAssignments (emps₁ ++ eJ :: emps₂) s =
      extractAssignments (emps₁ ++ eC :: emps₂) s := by
    unfold extractAssignments
    congr 1
    apply List.map_congr_left
    intro d _
    apply List.map_congr_left
    intro b _
    rw [hnames d b, hdisp]
  refine ⟨?_, ?_, hextract⟩
  · unfold feasible
    rw [havail, hcov, hrole, hclopen, hovertime]
  · unfold objectiveVal
    rw [hrolePen, hclopenPen, hovertimePen]

/-- Witness for C10: the malformed entry `"Nope"` alongside a valid one. -/
theorem junk_unavailability_ignored_witness :
    feasible ([] ++ { Employee.mk "j" "J" "General" 40 [] with
          unavailable_slots := [] ++ "Nope" :: ["Tue-Lunch"] } :: [])
        [] [] (zeroSolution [] []) =
      feasible ([] ++ { Employee.mk "j" "J" "General" 40 [] with
          unavailable_slots := [] ++ ["Tue-Lunch"] } :: [])
        [] [] (zeroSolution [] []) ∧
    objectiveVal ([] ++ { Employee.mk "j" "J" "General" 40 [] with
          unavailable_slots := [] ++ "Nope" :: ["Tue-Lunch"] } :: [])
        [] [] (zeroSolution [] []) =
      objectiveVal ([] ++ { Employee.mk "j" "J" "General" 40 [] with
          unavailable_slots := [] ++ ["Tue-Lunch"] } :: [])
        [] [] (zeroSolution [] []) ∧
    extractAssignments ([] ++ { Employee.mk "j" "J" "General" 40 [] with
          unavailable_slots := [] ++ "Nope" :: ["Tue-Lunch"] } :: []) (zeroSolution [] []) =
      extractAssignments ([] ++ { Employee.mk "j" "J" "General" 40 [] with
          unavailable_slots := [] ++ ["Tue-Lunch"] } :: []) (zeroSolution [] []) :=
  junk_unavailability_ignored [] [] [] [] (Employee.mk "j" "J" "General" 40 [])
    "Nope" [] ["Tue-Lunch"] (by decide) (zeroSolution [] [])

/-! ## C9 — CSV bulk import error handling -/

theorem mapE_error_of_mem {α β : Type} (f : α → Except String β)
    (l : List α) (a : α) (ha : a ∈ l) (hf : ∃ msg, f a = .error msg) :
    ∃ msg, mapE f l = .error msg := by
  induction l with
  | nil => cases ha
  | cons x xs ih =>
    cases hx : f x with
    | error m => exact ⟨m, by simp [mapE, hx]⟩
    | ok b =>
      rcases List.mem_cons.mp ha with rfl | hmem
      · obtain ⟨msg, hmsg⟩ := hf
        rw [hx] at hmsg
        cases hmsg
      · obtain ⟨msg, hmsg⟩ := ih hmem
        exact ⟨msg, by simp [mapE, hx, hmsg, Except.map]⟩

theorem parseStaffLines_skip_short (ls₁ ls₂ : List String) (bad : String)
    (hshort : (pySplit bad ',').length ≤ 2) :
    parseStaffLines (ls₁ ++ bad :: ls₂) = parseStaffLines (ls₁ ++ ls₂) := by
  unfold parseStaffLines
  congr 1
  simp only [List.filter_append, List.filter_cons, List.map_append]
  by_cases hb : (!(pyStrip bad).data.isEmpty) = true
  · have hlen : decide ((pySplit bad ',').length > 2) = false := by
      simp
      omega
    simp [hb, hlen]
  · simp [hb]

theorem parseStaffLines_abort_on_bad_int (ls : List String) (bad : String)
    (hmem : bad ∈ ls) (hnb : (pyStrip bad).data.isEmpty = false)
    (hlen : 2 < (pySplit bad ',').length)
    (hbad : pyInt (pyStrip ((pySplit bad ',').getD 2 "")) = none) :
    ∃ msg, parseStaffLines ls = .error msg := by
  unfold parseStaffLines
  apply mapE_error_of_mem _ _ (pySplit bad ',')
  · refine List.mem_filter.mpr ⟨?_, by simpa using hlen⟩
    exact List.mem_map.mpr ⟨bad, List.mem_filter.mpr ⟨hmem, by simp [hnb]⟩, rfl⟩
  · exact ⟨"invalid literal for int() with base 10", by rw [hbad]⟩

/-- C9 counterexample: the claim says a line with a non-integer hours field
is skipped while the well-formed lines of the same input are still
imported; in fact the `int()` call raises inside the comprehension, the
whole `try` block aborts, and nothing at all is imported — the well-formed
Alice line included. -/
theorem csv_bad_int_aborts_whole_import :
    parseStaffLines ["Alice, Chef, 40", "Bob, Cook, forty"] =
      .error "invalid literal for int() with base 10" ∧
    importStaffCsv "Alice, Chef, 40\nBob, Cook, forty" [] = [] := by
  exact ⟨rfl, rfl⟩

/-- C9 (amended): a line with fewer than 3 comma-separated fields is
skipped individually and the remaining lines are imported as if it were
absent; but a line with at least 3 fields whose hours field is not an
integer aborts the whole import with a parse error — no line is imported. -/
theorem csv_short_skipped_bad_int_aborts :
    (∀ (ls₁ ls₂ : List String) (bad : String),
      (pySplit bad ',').length ≤ 2 →
      parseStaffLines (ls₁ ++ bad :: ls₂) = parseStaffLines (ls₁ ++ ls₂)) ∧
    (∀ (ls : List String) (bad : String), bad ∈ ls →
      (pyStrip bad).data.isEmpty = false → 2 < (pySplit bad ',').length →
      pyInt (pyStrip ((pySplit bad ',').getD 2 "")) = none →
      ∃ msg, parseStaffLines ls = .error msg) :=
  ⟨parseStaffLines_skip_short, parseStaffLines_abort_on_bad_int⟩

/-- Witness for C9 (amended) at concrete inputs. -/
theorem csv_short_skipped_bad_int_aborts_witness :
    parseStaffLines (["Alice,Chef,40"] ++ "Bob" :: ["Carol,Cook,30"]) =
      parseStaffLines (["Alice,Chef,40"] ++ ["Carol,Cook,30"]) ∧
    ∃ msg, parseStaffLines ["Bob, Cook, forty"] = .error msg :=
  ⟨csv_short_skipped_bad_int_aborts.1 ["Alice,Chef,40"] ["Carol,Cook,30"] "Bob"
      (by decide),
    csv_short_skipped_bad_int_aborts.2 ["Bob, Cook, forty"] "Bob, Cook, forty"
      (by decide) (by decide) (by decide) (by decide)⟩

/-! ## C6 — the optimal penalty is monotone in demand -/

theorem workedAt_nonneg (emps : List Employee) (s : Solution) (d : Day) (b : TimeBlock) :
    0 ≤ workedAt emps s d b := by
  apply List.sum_nonneg
  intro x hx
  rw [List.mem_map] at hx
  obtain ⟨e, -, rfl⟩ := hx
  exact Int.natCast_nonneg _

theorem sumIdx_le_ignore {α β : Type} {f g : Nat → Int} :
    ∀ (k : Nat) (l₁ : List α) (l₂ : List β), l₁.length = l₂.length →
      (∀ j, f j ≤ g j) →
      sumIdx (fun j _ => f j) k l₁ ≤ sumIdx (fun j _ => g j) k l₂ := by
  intro k l₁
  induction l₁ generalizing k with
  | nil =>
    intro l₂ h _
    cases l₂ with
    | nil => exact le_refl _
    | cons b bs => simp at h
  | cons a as ih =>
    intro l₂ h hle
    cases l₂ with
    | nil => simp at h
    | cons b bs =>
      rw [sumIdx_cons, sumIdx_cons]
      exact add_le_add (hle k) (ih (k + 1) bs (by simpa using h) hle)

/-- C6: increasing one slot's `required_staff` (same slot, everything else
unchanged) never decreases the optimal objective value of the model: from
an optimal valuation of the increased instance, lowering its shortage
variable back into the old bound gives a feasible valuation of the original
instance of no larger objective. -/
theorem monotone_demand_penalty (emps : List Employee) (demands : List ShiftRequest)
    (rcs : List RoleConstraint) (t : Nat) (ht : t < demands.length) (n' : Int)
    (hnneg : 0 ≤ demands[t].required_staff)
    (hmono : demands[t].required_staff ≤ n')
    (v v' : Int)
    (hv : isOptimal emps demands rcs v)
    (hv' : isOptimal emps
      (demands.set t (ShiftRequest.mk demands[t].day demands[t].block n')) rcs v') :
    v ≤ v' := by
  obtain ⟨⟨s', hs'feas, hs'obj⟩, -⟩ := hv'
  set demands' := demands.set t (ShiftRequest.mk demands[t].day demands[t].block n')
    with hd'
  set s'' : Solution :=
    { s' with
      shortage := fun i =>
        if i = t then min (s'.shortage t) demands[t].required_staff
        else s'.shortage i } with hs''
  have hparts := feasible_parts hs'feas
  have hW : ∀ d b, workedAt emps s'' d b = workedAt emps s' d b := fun _ _ => rfl
  have hshape : ∀ m, s''.shortage m =
      if m = t then min (s'.shortage t) demands[t].required_staff
      else s'.shortage m := fun _ => rfl
  have hcov : coverageOk emps demands s'' = true := by
    rw [coverageOk, allIdx_iff]
    intro i hi
    have hi' : i < demands'.length := by rw [hd', List.length_set]; exact hi
    have h1 := hparts.2.1
    rw [coverageOk, allIdx_iff] at h1
    have h2 := h1 i hi'
    simp only [Nat.zero_add, Bool.and_eq_true, decide_eq_true_eq] at h2 ⊢
    by_cases hit : i = t
    · subst hit
      have hget : demands'[i] = ShiftRequest.mk demands[i].day demands[i].block n' :=
        List.getElem_set_self (hd' ▸ hi')
      rw [hget] at h2
      dsimp only at h2
      rw [if_pos rfl, hW]
      have hw0 : 0 ≤ workedAt emps s' demands[i].day demands[i].block :=
        workedAt_nonneg emps s' _ _
      rcases le_total (s'.shortage i) demands[i].required_staff with hle | hle
      · rw [min_eq_left hle]
        exact ⟨⟨h2.1.1, hle⟩, by omega⟩
      · rw [min_eq_right hle]
        exact ⟨⟨hnneg, le_refl _⟩, by omega⟩
    · have hget : demands'[i] = demands[i] :=
        List.getElem_set_ne (fun h => hit h.symm) (hd' ▸ hi')
      rw [hget] at h2
      rw [if_neg hit, hW]
      exact h2
  have hfeas : feasible emps demands rcs s'' = true := by
    rw [feasible]
    simp only [Bool.and_eq_true]
    exact ⟨⟨⟨⟨hparts.1, hcov⟩, hparts.2.2.1⟩, hparts.2.2.2.1⟩, hparts.2.2.2.2⟩
  have hobj : objectiveVal emps demands rcs s'' ≤ objectiveVal emps demands' rcs s' := by
    rw [objectiveVal, objectiveVal]
    have h1 : coveragePenalty demands s'' ≤ coveragePenalty demands' s' := by
      rw [coveragePenalty, coveragePenalty]
      refine @sumIdx_le_ignore ShiftRequest ShiftRequest
        (fun j => s''.shortage j * 1000) (fun j => s'.shortage j * 1000) 0
        demands demands' (by rw [hd', List.length_set]) ?_
      intro j
      show s''.shortage j * 1000 ≤ s'.shortage j * 1000
      by_cases hjt : j = t
      · subst hjt
        have hle : s''.shortage j ≤ s'.shortage j := by
          rw [hshape j, if_pos rfl]
          exact min_le_left _ _
        omega
      · have heq : s''.shortage j = s'.shortage j := by
          rw [hshape j, if_neg hjt]
        rw [heq]
    have h2 : rolePenalty emps rcs s'' = rolePenalty emps rcs s' := rfl
    have h3 : clopenPenalty emps s'' = clopenPenalty emps s' := rfl
    have h4 : overtimePenalty emps s'' = overtimePenalty emps s' := rfl
    rw [h2, h3, h4]
    exact add_le_add (add_le_add (add_le_add h1 (le_refl _)) (le_refl _)) (le_refl _)
  calc v ≤ objectiveVal emps demands rcs s'' := hv.2 s'' hfeas
    _ ≤ objectiveVal emps demands' rcs s' := hobj
    _ = v' := hs'obj

/-- Optimal value of the zero-employee instance with one demand entry:
every feasible valuation forces `shortage ≥ n`, and the zero solution
attains `n * 1000`. -/
theorem opt_single (n : Int) (hn : 0 ≤ n) :
    isOptimal [] [ShiftRequest.mk .Mon .Morning n] [] (n * 1000) := by
  constructor
  · refine ⟨zeroSolution [ShiftRequest.mk .Mon .Morning n] [], ?_, ?_⟩
    · simp [feasible, availOk, coverageOk, roleOk, clopenOk, overtimeOk, allIdx,
        workedAt, zeroSolution, hn]
    · simp [objectiveVal, coveragePenalty, rolePenalty, clopenPenalty,
        overtimePenalty, sumIdx, zeroSolution]
  · intro s hs
    have hc := (feasible_parts hs).2.1
    rw [coverageOk, allIdx_iff] at hc
    have h0 := hc 0 (by simp)
    simp only [Nat.zero_add, Bool.and_eq_true, decide_eq_true_eq, workedAt,
      List.map_nil, List.sum_nil, zero_add, List.getElem_cons_zero] at h0
    simp only [objectiveVal, coveragePenalty, rolePenalty, clopenPenalty,
      overtimePenalty, sumIdx, add_zero]
    omega

/-- Witness for C6: raising the sole demand entry from 0 to 1 raises the
optimal penalty from 0 to 1000. -/
theorem monotone_demand_penalty_witness : (0 : Int) * 1000 ≤ 1 * 1000 :=
  monotone_demand_penalty [] [ShiftRequest.mk .Mon .Morning 0] [] 0 (by decide) 1
    (by decide) (by decide) (0 * 1000) (1 * 1000)
    (opt_single 0 (by decide)) (opt_single 1 (by decide))

/-! ## C3 — the single-employee worked example -/

/-- The roster of the worked example: one employee, available everywhere,
`max_hours = 40`. -/
def exEmployee : Employee := ⟨"e1", "Solo", "General", 40, []⟩

/-- The demand of the worked example: 1 required staff in each of the 21
slots, in the day-major order `app.py` builds the request list. -/
def exDemands : List ShiftRequest :=
  [ShiftRequest.mk .Mon .Morning 1, ShiftRequest.mk .Mon .Lunch 1, ShiftRequest.mk .Mon .Dinner 1,
   ShiftRequest.mk .Tue .Morning 1, ShiftRequest.mk .Tue .Lunch 1, ShiftRequest.mk .Tue .Dinner 1,
   ShiftRequest.mk .Wed .Morning 1, ShiftRequest.mk .Wed .Lunch 1, ShiftRequest.mk .Wed .Dinner 1,
   ShiftRequest.mk .Thu .Morning 1, ShiftRequest.mk .Thu .Lunch 1, ShiftRequest.mk .Thu .Dinner 1,
   ShiftRequest.mk .Fri .Morning 1, ShiftRequest.mk .Fri .Lunch 1, ShiftRequest.mk .Fri .Dinner 1,
   ShiftRequest.mk .Sat .Morning 1, ShiftRequest.mk .Sat .Lunch 1, ShiftRequest.mk .Sat .Dinner 1,
   ShiftRequest.mk .Sun .Morning 1, ShiftRequest.mk .Sun .Lunch 1, ShiftRequest.mk .Sun .Dinner 1]

/-- The valuation the claim expects to be optimal: the employee works all
21 slots; every shortage is 0, every clopen indicator is forced true, and
overtime is at its minimum `84 - 40 = 44`. -/
def allOnSolution : Solution :=
  ⟨fun _ _ _ => true, fun _ => 0, fun _ _ _ => 0, fun _ _ => true, fun _ => 44⟩

theorem bool_toNat_le (b : Bool) : ((b.toNat : Int)) ≤ 1 := by
  cases b <;> decide

theorem bool_toNat_one {b : Bool} (h : (b.toNat : Int) = 1) : b = true := by
  cases b
  · exact absurd h (by decide)
  · rfl

theorem bool_and_toNat_lb (a b : Bool) :
    (a.toNat : Int) + (b.toNat : Int) - 1 ≤ (((a && b)).toNat : Int) := by
  cases a <;> cases b <;> decide

/-- The two `OnlyEnforceIf` constraints force the clopen indicator to equal
the conjunction of its two shift variables. -/
theorem clopen_forced (s : Solution) (k i : Nat) (eid : String)
    (h : clopenPairOk s k eid i = true) :
    s.clopen k i = (s.shift eid (daysList.getD i .Mon) .Dinner &&
      s.shift eid (daysList.getD (i + 1) .Mon) .Morning) := by
  revert h
  rw [clopenPairOk]
  cases s.clopen k i <;> cases s.shift eid (daysList.getD i .Mon) .Dinner <;>
    cases s.shift eid (daysList.getD (i + 1) .Mon) .Morning <;> simp

theorem worked_example_core (s : Solution)
    (hs : feasible [exEmployee] exDemands [] s = true) :
    5200 ≤ objectiveVal [exEmployee] exDemands [] s ∧
      (objectiveVal [exEmployee] exDemands [] s = 5200 →
        ∀ d b, s.shift "e1" d b = true) := by
  have hrange : List.range 6 = [0, 1, 2, 3, 4, 5] := rfl
  have parts := feasible_parts hs
  have hcov := parts.2.1
  simp only [coverageOk, exDemands, allIdx, Nat.reduceAdd, Bool.and_eq_true,
    Bool.and_true, decide_eq_true_eq, workedAt, exEmployee, List.map_cons,
    List.map_nil, List.sum_cons, List.sum_nil, add_zero] at hcov
  obtain ⟨hcv0, hcv1, hcv2, hcv3, hcv4, hcv5, hcv6, hcv7, hcv8, hcv9, hcv10, hcv11, hcv12, hcv13, hcv14, hcv15, hcv16, hcv17, hcv18, hcv19, hcv20⟩ := hcov
  have hclo := parts.2.2.2.1
  simp only [clopenOk, allIdx, Bool.and_eq_true, Bool.and_true, exEmployee,
    hrange, List.all_cons, List.all_nil] at hclo
  obtain ⟨hc0, hc1, hc2, hc3, hc4, hc5⟩ := hclo
  have hov := parts.2.2.2.2
  simp only [overtimeOk, allIdx, Bool.and_eq_true, Bool.and_true,
    decide_eq_true_eq, exEmployee, totalBlocksId, daysList, blocksList,
    List.map_cons, List.map_nil, List.sum_cons, List.sum_nil, add_zero] at hov
  have e0 : s.clopen 0 0 = (s.shift "e1" Day.Mon TimeBlock.Dinner && s.shift "e1" Day.Tue TimeBlock.Morning) :=
    clopen_forced s 0 0 "e1" hc0
  have e1 : s.clopen 0 1 = (s.shift "e1" Day.Tue TimeBlock.Dinner && s.shift "e1" Day.Wed TimeBlock.Morning) :=
    clopen_forced s 0 1 "e1" hc1
  have e2 : s.clopen 0 2 = (s.shift "e1" Day.Wed TimeBlock.Dinner && s.shift "e1" Day.Thu TimeBlock.Morning) :=
    clopen_forced s 0 2 "e1" hc2
  have e3 : s.clopen 0 3 = (s.shift "e1" Day.Thu TimeBlock.Dinner && s.shift "e1" Day.Fri TimeBlock.Morning) :=
    clopen_forced s 0 3 "e1" hc3
  have e4 : s.clopen 0 4 = (s.shift "e1" Day.Fri TimeBlock.Dinner && s.shift "e1" Day.Sat TimeBlock.Morning) :=
    clopen_forced s 0 4 "e1" hc4
  have e5 : s.clopen 0 5 = (s.shift "e1" Day.Sat TimeBlock.Dinner && s.shift "e1" Day.Sun TimeBlock.Morning) :=
    clopen_forced s 0 5 "e1" hc5
  have hbMonMorning : ((s.shift "e1" Day.Mon TimeBlock.Morning).toNat : Int) ≤ 1 := bool_toNat_le _
  have hbMonLunch : ((s.shift "e1" Day.Mon TimeBlock.Lunch).toNat : Int) ≤ 1 := bool_toNat_le _
  have hbMonDinner : ((s.shift "e1" Day.Mon TimeBlock.Dinner).toNat : Int) ≤ 1 := bool_toNat_le _
  have hbTueMorning : ((s.shift "e1" Day.Tue TimeBlock.Morning).toNat : Int) ≤ 1 := bool_toNat_le _
  have hbTueLunch : ((s.shift "e1" Day.Tue TimeBlock.Lunch).toNat : Int) ≤ 1 := bool_toNat_le _
  have hbTueDinner : ((s.shift "e1" Day.Tue TimeBlock.Dinner).toNat : Int) ≤ 1 := bool_toNat_le _
  have hbWedMorning : ((s.shift "e1" Day.Wed TimeBlock.Morning).toNat : Int) ≤ 1 := bool_toNat_le _
  have hbWedLunch : ((s.shift "e1" Day.Wed TimeBlock.Lunch).toNat : Int) ≤ 1 := bool_toNat_le _
  have hbWedDinner : ((s.shift "e1" Day.Wed TimeBlock.Dinner).toNat : Int) ≤ 1 := bool_toNat_le _
  have hbThuMorning : ((s.shift "e1" Day.Thu TimeBlock.Morning).toNat : Int) ≤ 1 := bool_toNat_le _
  have hbThuLunch : ((s.shift "e1" Day.Thu TimeBlock.Lunch).toNat : Int) ≤ 1 := bool_toNat_le _
  have hbThuDinner : ((s.shift "e1" Day.Thu TimeBlock.Dinner).toNat : Int) ≤ 1 := bool_toNat_le _
  have hbFriMorning : ((s.shift "e1" Day.Fri TimeBlock.Morning).toNat : Int) ≤ 1 := bool_toNat_le _
  have hbFriLunch : ((s.shift "e1" Day.Fri TimeBlock.Lunch).toNat : Int) ≤ 1 := bool_toNat_le _
  have hbFriDinner : ((s.shift "e1" Day.Fri TimeBlock.Dinner).toNat : Int) ≤ 1 := bool_toNat_le _
  have hbSatMorning : ((s.shift "e1" Day.Sat TimeBlock.Morning).toNat : Int) ≤ 1 := bool_toNat_le _
  have hbSatLunch : ((s.shift "e1" Day.Sat TimeBlock.Lunch).toNat : Int) ≤ 1 := bool_toNat_le _
  have hbSatDinner : ((s.shift "e1" Day.Sat TimeBlock.Dinner).toNat : Int) ≤ 1 := bool_toNat_le _
  have hbSunMorning : ((s.shift "e1" Day.Sun TimeBlock.Morning).toNat : Int) ≤ 1 := bool_toNat_le _
  have hbSunLunch : ((s.shift "e1" Day.Sun TimeBlock.Lunch).toNat : Int) ≤ 1 := bool_toNat_le _
  have hbSunDinner : ((s.shift "e1" Day.Sun TimeBlock.Dinner).toNat : Int) ≤ 1 := bool_toNat_le _
  have hp0 := bool_and_toNat_lb (s.shift "e1" Day.Mon TimeBlock.Dinner) (s.shift "e1" Day.Tue TimeBlock.Morning)
  have hp1 := bool_and_toNat_lb (s.shift "e1" Day.Tue TimeBlock.Dinner) (s.shift "e1" Day.Wed TimeBlock.Morning)
  have hp2 := bool_and_toNat_lb (s.shift "e1" Day.Wed TimeBlock.Dinner) (s.shift "e1" Day.Thu TimeBlock.Morning)
  have hp3 := bool_and_toNat_lb (s.shift "e1" Day.Thu TimeBlock.Dinner) (s.shift "e1" Day.Fri TimeBlock.Morning)
  have hp4 := bool_and_toNat_lb (s.shift "e1" Day.Fri TimeBlock.Dinner) (s.shift "e1" Day.Sat TimeBlock.Morning)
  have hp5 := bool_and_toNat_lb (s.shift "e1" Day.Sat TimeBlock.Dinner) (s.shift "e1" Day.Sun TimeBlock.Morning)
  have hn0 : (0 : Int) ≤ ((s.shift "e1" Day.Mon TimeBlock.Dinner && s.shift "e1" Day.Tue TimeBlock.Morning).toNat : Int) := Int.natCast_nonneg _
  have hn1 : (0 : Int) ≤ ((s.shift "e1" Day.Tue TimeBlock.Dinner && s.shift "e1" Day.Wed TimeBlock.Morning).toNat : Int) := Int.natCast_nonneg _
  have hn2 : (0 : Int) ≤ ((s.shift "e1" Day.Wed TimeBlock.Dinner && s.shift "e1" Day.Thu TimeBlock.Morning).toNat : Int) := Int.natCast_nonneg _
  have hn3 : (0 : Int) ≤ ((s.shift "e1" Day.Thu TimeBlock.Dinner && s.shift "e1" Day.Fri TimeBlock.Morning).toNat : Int) := Int.natCast_nonneg _
  have hn4 : (0 : Int) ≤ ((s.shift "e1" Day.Fri TimeBlock.Dinner && s.shift "e1" Day.Sat TimeBlock.Morning).toNat : Int) := Int.natCast_nonneg _
  have hn5 : (0 : Int) ≤ ((s.shift "e1" Day.Sat TimeBlock.Dinner && s.shift "e1" Day.Sun TimeBlock.Morning).toNat : Int) := Int.natCast_nonneg _
  have hkey : ∀ v : Int, v = objectiveVal [exEmployee] exDemands [] s →
      5200 ≤ v ∧ (v = 5200 → ((s.shift "e1" Day.Mon TimeBlock.Morning).toNat : Int) + ((s.shift "e1" Day.Mon TimeBlock.Lunch).toNat : Int) + ((s.shift "e1" Day.Mon TimeBlock.Dinner).toNat : Int) + ((s.shift "e1" Day.Tue TimeBlock.Morning).toNat : Int) + ((s.shift "e1" Day.Tue TimeBlock.Lunch).toNat : Int) + ((s.shift "e1" Day.Tue TimeBlock.Dinner).toNat : Int) + ((s.shift "e1" Day.Wed TimeBlock.Morning).toNat : Int) + ((s.shift "e1" Day.Wed TimeBlock.Lunch).toNat : Int) + ((s.shift "e1" Day.Wed TimeBlock.Dinner).toNat : Int) + ((s.shift "e1" Day.Thu TimeBlock.Morning).toNat : Int) + ((s.shift "e1" Day.Thu TimeBlock.Lunch).toNat : Int) + ((s.shift "e1" Day.Thu TimeBlock.Dinner).toNat : Int) + ((s.shift "e1" Day.Fri TimeBlock.Morning).toNat : Int) + ((s.shift "e1" Day.Fri TimeBlock.Lunch).toNat : Int) + ((s.shift "e1" Day.Fri TimeBlock.Dinner).toNat : Int) + ((s.shift "e1" Day.Sat TimeBlock.Morning).toNat : Int) + ((s.shift "e1" Day.Sat TimeBlock.Lunch).toNat : Int) + ((s.shift "e1" Day.Sat TimeBlock.Dinner).toNat : Int) + ((s.shift "e1" Day.Sun TimeBlock.Morning).toNat : Int) + ((s.shift "e1" Day.Sun TimeBlock.Lunch).toNat : Int) + ((s.shift "e1" Day.Sun TimeBlock.Dinner).toNat : Int) = 21) := by
    intro v hv
    simp only [objectiveVal, coveragePenalty, rolePenalty, clopenPenalty,
      overtimePenalty, sumIdx, exDemands, exEmployee, hrange, Nat.reduceAdd,
      List.map_cons, List.map_nil, List.sum_cons, List.sum_nil, add_zero] at hv
    rw [e0, e1, e2, e3, e4, e5] at hv
    rcases le_or_lt (((s.shift "e1" Day.Mon TimeBlock.Morning).toNat : Int) + ((s.shift "e1" Day.Mon TimeBlock.Lunch).toNat : Int) + ((s.shift "e1" Day.Mon TimeBlock.Dinner).toNat : Int) + ((s.shift "e1" Day.Tue TimeBlock.Morning).toNat : Int) + ((s.shift "e1" Day.Tue TimeBlock.Lunch).toNat : Int) + ((s.shift "e1" Day.Tue TimeBlock.Dinner).toNat : Int) + ((s.shift "e1" Day.Wed TimeBlock.Morning).toNat : Int) + ((s.shift "e1" Day.Wed TimeBlock.Lunch).toNat : Int) + ((s.shift "e1" Day.Wed TimeBlock.Dinner).toNat : Int) + ((s.shift "e1" Day.Thu TimeBlock.Morning).toNat : Int) + ((s.shift "e1" Day.Thu TimeBlock.Lunch).toNat : Int) + ((s.shift "e1" Day.Thu TimeBlock.Dinner).toNat : Int) + ((s.shift "e1" Day.Fri TimeBlock.Morning).toNat : Int) + ((s.shift "e1" Day.Fri TimeBlock.Lunch).toNat : Int) + ((s.shift "e1" Day.Fri TimeBlock.Dinner).toNat : Int) + ((s.shift "e1" Day.Sat TimeBlock.Morning).toNat : Int) + ((s.shift "e1" Day.Sat TimeBlock.Lunch).toNat : Int) + ((s.shift "e1" Day.Sat TimeBlock.Dinner).toNat : Int) + ((s.shift "e1" Day.Sun TimeBlock.Morning).toNat : Int) + ((s.shift "e1" Day.Sun TimeBlock.Lunch).toNat : Int) + ((s.shift "e1" Day.Sun TimeBlock.Dinner).toNat : Int)) 14 with hK | hK
    · constructor
      · linarith [hcv0.1.1, hcv1.1.1, hcv2.1.1, hcv3.1.1, hcv4.1.1, hcv5.1.1, hcv6.1.1, hcv7.1.1, hcv8.1.1, hcv9.1.1, hcv10.1.1, hcv11.1.1, hcv12.1.1, hcv13.1.1, hcv14.1.1, hcv15.1.1, hcv16.1.1, hcv17.1.1, hcv18.1.1, hcv19.1.1, hcv20.1.1, hcv0.2, hcv1.2, hcv2.2, hcv3.2, hcv4.2, hcv5.2, hcv6.2, hcv7.2, hcv8.2, hcv9.2, hcv10.2, hcv11.2, hcv12.2, hcv13.2, hcv14.2, hcv15.2, hcv16.2, hcv17.2, hcv18.2, hcv19.2, hcv20.2, hn0, hn1, hn2, hn3, hn4, hn5, hov.1.1]
      · intro h5
        exfalso
        linarith [hcv0.1.1, hcv1.1.1, hcv2.1.1, hcv3.1.1, hcv4.1.1, hcv5.1.1, hcv6.1.1, hcv7.1.1, hcv8.1.1, hcv9.1.1, hcv10.1.1, hcv11.1.1, hcv12.1.1, hcv13.1.1, hcv14.1.1, hcv15.1.1, hcv16.1.1, hcv17.1.1, hcv18.1.1, hcv19.1.1, hcv20.1.1, hcv0.2, hcv1.2, hcv2.2, hcv3.2, hcv4.2, hcv5.2, hcv6.2, hcv7.2, hcv8.2, hcv9.2, hcv10.2, hcv11.2, hcv12.2, hcv13.2, hcv14.2, hcv15.2, hcv16.2, hcv17.2, hcv18.2, hcv19.2, hcv20.2, hn0, hn1, hn2, hn3, hn4, hn5, hov.1.1]
    · constructor
      · linarith [hcv0.1.1, hcv1.1.1, hcv2.1.1, hcv3.1.1, hcv4.1.1, hcv5.1.1, hcv6.1.1, hcv7.1.1, hcv8.1.1, hcv9.1.1, hcv10.1.1, hcv11.1.1, hcv12.1.1, hcv13.1.1, hcv14.1.1, hcv15.1.1, hcv16.1.1, hcv17.1.1, hcv18.1.1, hcv19.1.1, hcv20.1.1, hcv0.2, hcv1.2, hcv2.2, hcv3.2, hcv4.2, hcv5.2, hcv6.2, hcv7.2, hcv8.2, hcv9.2, hcv10.2, hcv11.2, hcv12.2, hcv13.2, hcv14.2, hcv15.2, hcv16.2, hcv17.2, hcv18.2, hcv19.2, hcv20.2, hp0, hp1, hp2, hp3, hp4, hp5, hbMonMorning, hbMonLunch, hbMonDinner, hbTueMorning, hbTueLunch, hbTueDinner, hbWedMorning, hbWedLunch, hbWedDinner, hbThuMorning, hbThuLunch, hbThuDinner, hbFriMorning, hbFriLunch, hbFriDinner, hbSatMorning, hbSatLunch, hbSatDinner, hbSunMorning, hbSunLunch, hbSunDinner, hov.2]
      · intro h5
        have hle21 : ((s.shift "e1" Day.Mon TimeBlock.Morning).toNat : Int) + ((s.shift "e1" Day.Mon TimeBlock.Lunch).toNat : Int) + ((s.shift "e1" Day.Mon TimeBlock.Dinner).toNat : Int) + ((s.shift "e1" Day.Tue TimeBlock.Morning).toNat : Int) + ((s.shift "e1" Day.Tue TimeBlock.Lunch).toNat : Int) + ((s.shift "e1" Day.Tue TimeBlock.Dinner).toNat : Int) + ((s.shift "e1" Day.Wed TimeBlock.Morning).toNat : Int) + ((s.shift "e1" Day.Wed TimeBlock.Lunch).toNat : Int) + ((s.shift "e1" Day.Wed TimeBlock.Dinner).toNat : Int) + ((s.shift "e1" Day.Thu TimeBlock.Morning).toNat : Int) + ((s.shift "e1" Day.Thu TimeBlock.Lunch).toNat : Int) + ((s.shift "e1" Day.Thu TimeBlock.Dinner).toNat : Int) + ((s.shift "e1" Day.Fri TimeBlock.Morning).toNat : Int) + ((s.shift "e1" Day.Fri TimeBlock.Lunch).toNat : Int) + ((s.shift "e1" Day.Fri TimeBlock.Dinner).toNat : Int) + ((s.shift "e1" Day.Sat TimeBlock.Morning).toNat : Int) + ((s.shift "e1" Day.Sat TimeBlock.Lunch).toNat : Int) + ((s.shift "e1" Day.Sat TimeBlock.Dinner).toNat : Int) + ((s.shift "e1" Day.Sun TimeBlock.Morning).toNat : Int) + ((s.shift "e1" Day.Sun TimeBlock.Lunch).toNat : Int) + ((s.shift "e1" Day.Sun TimeBlock.Dinner).toNat : Int) ≤ 21 := by linarith [hbMonMorning, hbMonLunch, hbMonDinner, hbTueMorning, hbTueLunch, hbTueDinner, hbWedMorning, hbWedLunch, hbWedDinner, hbThuMorning, hbThuLunch, hbThuDinner, hbFriMorning, hbFriLunch, hbFriDinner, hbSatMorning, hbSatLunch, hbSatDinner, hbSunMorning, hbSunLunch, hbSunDinner]
        have hge21 : 21 ≤ ((s.shift "e1" Day.Mon TimeBlock.Morning).toNat : Int) + ((s.shift "e1" Day.Mon TimeBlock.Lunch).toNat : Int) + ((s.shift "e1" Day.Mon TimeBlock.Dinner).toNat : Int) + ((s.shift "e1" Day.Tue TimeBlock.Morning).toNat : Int) + ((s.shift "e1" Day.Tue TimeBlock.Lunch).toNat : Int) + ((s.shift "e1" Day.Tue TimeBlock.Dinner).toNat : Int) + ((s.shift "e1" Day.Wed TimeBlock.Morning).toNat : Int) + ((s.shift "e1" Day.Wed TimeBlock.Lunch).toNat : Int) + ((s.shift "e1" Day.Wed TimeBlock.Dinner).toNat : Int) + ((s.shift "e1" Day.Thu TimeBlock.Morning).toNat : Int) + ((s.shift "e1" Day.Thu TimeBlock.Lunch).toNat : Int) + ((s.shift "e1" Day.Thu TimeBlock.Dinner).toNat : Int) + ((s.shift "e1" Day.Fri TimeBlock.Morning).toNat : Int) + ((s.shift "e1" Day.Fri TimeBlock.Lunch).toNat : Int) + ((s.shift "e1" Day.Fri TimeBlock.Dinner).toNat : Int) + ((s.shift "e1" Day.Sat TimeBlock.Morning).toNat : Int) + ((s.shift "e1" Day.Sat TimeBlock.Lunch).toNat : Int) + ((s.shift "e1" Day.Sat TimeBlock.Dinner).toNat : Int) + ((s.shift "e1" Day.Sun TimeBlock.Morning).toNat : Int) + ((s.shift "e1" Day.Sun TimeBlock.Lunch).toNat : Int) + ((s.shift "e1" Day.Sun TimeBlock.Dinner).toNat : Int) := by
          linarith [hcv0.1.1, hcv1.1.1, hcv2.1.1, hcv3.1.1, hcv4.1.1, hcv5.1.1, hcv6.1.1, hcv7.1.1, hcv8.1.1, hcv9.1.1, hcv10.1.1, hcv11.1.1, hcv12.1.1, hcv13.1.1, hcv14.1.1, hcv15.1.1, hcv16.1.1, hcv17.1.1, hcv18.1.1, hcv19.1.1, hcv20.1.1, hcv0.2, hcv1.2, hcv2.2, hcv3.2, hcv4.2, hcv5.2, hcv6.2, hcv7.2, hcv8.2, hcv9.2, hcv10.2, hcv11.2, hcv12.2, hcv13.2, hcv14.2, hcv15.2, hcv16.2, hcv17.2, hcv18.2, hcv19.2, hcv20.2, hp0, hp1, hp2, hp3, hp4, hp5, hbMonMorning, hbMonLunch, hbMonDinner, hbTueMorning, hbTueLunch, hbTueDinner, hbWedMorning, hbWedLunch, hbWedDinner, hbThuMorning, hbThuLunch, hbThuDinner, hbFriMorning, hbFriLunch, hbFriDinner, hbSatMorning, hbSatLunch, hbSatDinner, hbSunMorning, hbSunLunch, hbSunDinner, hov.2]
        linarith
  have hmain := hkey (objectiveVal [exEmployee] exDemands [] s) rfl
  refine ⟨hmain.1, fun heq d b => ?_⟩
  have hsum := hmain.2 heq
  clear hmain hkey heq hov hc0 hc1 hc2 hc3 hc4 hc5 e0 e1 e2 e3 e4 e5 hp0 hp1
    hp2 hp3 hp4 hp5 hn0 hn1 hn2 hn3 hn4 hn5 parts hs
  clear hcv0 hcv1 hcv2 hcv3 hcv4 hcv5 hcv6 hcv7 hcv8 hcv9 hcv10 hcv11 hcv12 hcv13 hcv14 hcv15 hcv16 hcv17 hcv18 hcv19 hcv20
  cases d <;> cases b <;> exact bool_toNat_one (by omega)

theorem popVariance_single (v : Int) : popVariance [v] = 0 := by
  simp [popVariance]

theorem fairnessStdDev_single (v : Int) : fairnessStdDev [v] = 0 := by
  rw [fairnessStdDev, popVariance_single]
  simp

theorem empHoursValues_single (s : Solution) :
    empHoursValues [exEmployee] s = [totalBlocksId "e1" s * 4] := rfl

/-- C3: for one employee available everywhere with `max_hours = 40`, demand
1 in every slot and no role rules: the all-on valuation is feasible with
objective 5200 (overtime `44 * 50 = 2200` plus six clopens `6 * 500 =
3000`); every feasible valuation costs at least 5200; a feasible valuation
attaining 5200 assigns the employee to all 21 slots; and the returned
metrics of such an optimal solve are `total_penalty = 5200` and
`fairness_std_dev = 0`. -/
theorem worked_example_single_employee :
    (feasible [exEmployee] exDemands [] allOnSolution = true ∧
      objectiveVal [exEmployee] exDemands [] allOnSolution = 5200 ∧
      (∀ d b, allOnSolution.shift "e1" d b = true)) ∧
    (∀ s : Solution, feasible [exEmployee] exDemands [] s = true →
      5200 ≤ objectiveVal [exEmployee] exDemands [] s) ∧
    (∀ s : Solution, feasible [exEmployee] exDemands [] s = true →
      objectiveVal [exEmployee] exDemands [] s = 5200 →
      ∀ d b, s.shift "e1" d b = true) ∧
    (∀ s : Solution, feasible [exEmployee] exDemands [] s = true →
      objectiveVal [exEmployee] exDemands [] s = 5200 →
      (solveScheduleResult [exEmployee] exDemands [] .OPTIMAL s).total_penalty = 5200 ∧
        (solveScheduleResult [exEmployee] exDemands [] .OPTIMAL s).fairness_std_dev = 0) := by
  refine ⟨⟨by decide, by decide, fun _ _ => rfl⟩,
    fun s hs => (worked_example_core s hs).1,
    fun s hs heq => (worked_example_core s hs).2 heq,
    fun s hs heq => ?_⟩
  rw [solveScheduleResult, if_pos (Or.inl rfl)]
  exact ⟨heq, by rw [show fairnessStdDev (empHoursValues [exEmployee] s) = 0 from
    by rw [empHoursValues_single, fairnessStdDev_single]]⟩

/-- Witness for C3 at the all-on valuation. -/
theorem worked_example_single_employee_witness :
    5200 ≤ objectiveVal [exEmployee] exDemands [] allOnSolution ∧
      allOnSolution.shift "e1" Day.Sun TimeBlock.Dinner = true ∧
      (solveScheduleResult [exEmployee] exDemands []
        .OPTIMAL allOnSolution).total_penalty = 5200 :=
  ⟨worked_example_single_employee.2.1 allOnSolution (by decide),
    worked_example_single_employee.2.2.1 allOnSolution (by decide) (by decide)
      Day.Sun TimeBlock.Dinner,
    (worked_example_single_employee.2.2.2 allOnSolution (by decide) (by decide)).1⟩
